import Mathlib

/-!
# airline-checkin: the transactional booking engine

A shallow embedding of `database.go` and `main.go`.

The Go program drives a MySQL table `seats` through `database/sql`.  The table is
embedded as a list of rows, one attempt's transaction as explicit state passing
over a `World` (committed rows, the writes buffered by the open transaction, the
statements issued so far, the lines logged so far), and the store's behaviour that
the program cannot control (a call failing, a row being locked by somebody else)
as a `Faults` value handed to each attempt.  Concurrent attempts are embedded in
the order in which the row lock serialises them.
-/

namespace AirlineCheckin

/-! ## Constants of `main.go` -/

/-- The constant `flightID` of `main.go`. -/
def flightID : String := "SG-101"

/-- The constant `targetSeat` of `main.go`. -/
def targetSeat : String := "1A"

/-- The constant `numPassengers` of `main.go`. -/
def numPassengers : Nat := 10

/-- The constant `numSeats` of `main.go`. -/
def numSeats : Nat := 10

/-! ## Data model -/

/-- The type `LockMode` of `database.go`, with its two constants. -/
inductive LockMode where
  | LockModeWait
  | LockModeNoWait
  deriving DecidableEq, Repr

/-- The column type `ENUM('available', 'occupied')` of `seats.status`. -/
inductive Status where
  | available
  | occupied
  deriving DecidableEq, Repr

/-- The text a status is scanned as into the Go string `currentStatus`. -/
def Status.text : Status → String
  | .available => "available"
  | .occupied => "occupied"

/-- One row of the table `seats` created by `SetupDatabase`.  The column `status` is
nullable in the schema, but the program only ever stores the default `'available'` and the
two values its `UPDATE` statements write, so a row here always has a status. -/
structure Seat where
  id : Int
  flight_id : String
  seat_number : String
  status : Status
  passenger_id : Option String
  deriving DecidableEq, Repr

/-- The content of the table `seats`, in primary-key order. -/
abbrev Table := List Seat

/-- An error value returned by a store call. -/
inductive DbError where
  /-- A `*mysql.MySQLError` with the given `Number`. -/
  | mysql (number : Nat)
  /-- The value `sql.ErrNoRows`. -/
  | errNoRows
  /-- Any other error value. -/
  | other
  deriving DecidableEq, Repr

/-- What the store does to the calls of one attempt, beyond what the rows decide:
whether `db.Begin` fails, an error for the locked `SELECT` (lock contention, lost
connection), whether the `UPDATE` fails, whether `tx.Commit` fails. -/
structure Faults where
  beginFails : Bool
  queryError : Option DbError
  execFails : Bool
  commitFails : Bool
  deriving DecidableEq, Repr

/-- A store on which every call succeeds. -/
def Faults.none : Faults := ⟨false, Option.none, false, false⟩

/-- A call made on the store by one attempt, with its result where the program tests it. -/
inductive Call where
  /-- The call `db.Begin()`; `ok` is `err == nil`. -/
  | begin (ok : Bool)
  /-- The query `SELECT status FROM seats WHERE id = ? FOR UPDATE`, with ` NOWAIT` appended
  when `nowait`. -/
  | selectStatusForUpdate (seatID : Int) (nowait : Bool)
  /-- The query `SELECT id, seat_number FROM seats WHERE status = 'available' LIMIT 1
  FOR UPDATE SKIP LOCKED`. -/
  | selectAvailableSkipLocked
  /-- The statement `UPDATE seats SET status = 'occupied', passenger_id = ? WHERE id = ?`;
  `ok` is `err == nil`. -/
  | updateOccupied (passenger_id : String) (seatID : Int) (ok : Bool)
  /-- The call `tx.Commit()`; `ok` is `err == nil`. -/
  | commit (ok : Bool)
  /-- The call `tx.Rollback()`. -/
  | rollback
  deriving DecidableEq, Repr

/-- One `log.Printf` statement of `BookSeat` or `BookAnyAvailableSeat`, with the arguments
that identify the passenger, the seat and the status. -/
inductive LogLine where
  /-- The line "Failed to start transaction" (database.go:105 and :152). -/
  | failedToStartTransaction (passengerID : String)
  /-- The line "Seat %d is locked by another user. Not waiting." (database.go:120). -/
  | seatLockedNotWaiting (passengerID : String) (seatID : Int)
  /-- The line "Failed to query seat status" (database.go:122). -/
  | failedToQuerySeatStatus (passengerID : String)
  /-- The line "Sees seat %d is '%s'." (database.go:127). -/
  | seesSeat (passengerID : String) (seatID : Int) (currentStatus : String)
  /-- The line "Seat is available. Attempting to book..." (database.go:132). -/
  | attemptingToBook (passengerID : String)
  /-- The line "Failed to update seat" (database.go:135). -/
  | failedToUpdateSeat (passengerID : String)
  /-- The line "Successfully booked seat %d!" (database.go:138). -/
  | successfullyBookedSeat (passengerID : String) (seatID : Int)
  /-- The line "Failed to book seat %d, it was already '%s'." (database.go:140). -/
  | alreadyTaken (passengerID : String) (seatID : Int) (currentStatus : String)
  /-- The line "Failed to commit transaction" (database.go:144). -/
  | failedToCommit (passengerID : String)
  /-- The line "No available seats found." (database.go:170). -/
  | noAvailableSeats (passengerID : String)
  /-- The line "Error finding a seat" (database.go:172). -/
  | errorFindingSeat (passengerID : String)
  /-- The line "Found and locked available seat %s (ID: %d). Booking now..." (database.go:178). -/
  | foundAndLocked (passengerID : String) (seatNumber : String) (seatID : Int)
  /-- The line "Successfully booked seat %s!" (database.go:185). -/
  | successfullyBookedAny (passengerID : String) (seatNumber : String)
  deriving DecidableEq, Repr

/-- A buffered `UPDATE seats SET status = ?, passenger_id = ? WHERE id = ?`. -/
structure Write where
  seatID : Int
  status : Status
  passenger_id : Option String
  deriving DecidableEq, Repr

/-- The effect of an `UPDATE ... WHERE id = ?` on the rows. -/
def Write.apply (wr : Write) (rows : Table) : Table :=
  rows.map fun r =>
    if r.id = wr.seatID then { r with status := wr.status, passenger_id := wr.passenger_id } else r

/-- The row a `SELECT ... WHERE id = ?` returns: the first row with this id. -/
def seatByID (rows : Table) (seatID : Int) : Option Seat :=
  rows.find? fun r => r.id = seatID

/-- The row a `SELECT ... WHERE status = 'available' LIMIT 1` returns when no row is locked
by another transaction: the first available row. -/
def firstAvailable (rows : Table) : Option Seat :=
  rows.find? fun r => r.status = Status.available

/-- The state one attempt runs in. -/
structure World where
  /-- The committed content of `seats`. -/
  rows : Table
  /-- The writes of the open transaction, not committed yet. -/
  pending : List Write
  /-- The store calls made so far, oldest first. -/
  trace : List Call
  /-- The lines logged so far, oldest first. -/
  log : List LogLine
  deriving DecidableEq, Repr

/-- The world at the start of an attempt. -/
def World.start (rows : Table) : World := ⟨rows, [], [], []⟩

/-- A call to `log.Printf`. -/
def World.Printf (w : World) (l : LogLine) : World := { w with log := w.log ++ [l] }

/-! ## The store (`database/sql` over MySQL)

The store is a library the program calls, not code of the repository.  Its calls follow the
contract of section 4.1 of the specification: an `UPDATE` inside a transaction is buffered;
`Commit` makes the buffered writes the committed rows when it succeeds and discards them when
it fails; `Rollback` discards them, and does nothing once the transaction is done. -/

/-- Modelled from the spec: the library call `db.Begin()` (`begin` of section 4.1), which
starts a transaction with nothing buffered and returns whether `err == nil`. -/
def World.Begin (w : World) (f : Faults) : World × Bool :=
  ({ w with pending := [], trace := w.trace ++ [Call.begin (!f.beginFails)] }, !f.beginFails)

/-- Modelled from the spec: the library call `tx.QueryRow("SELECT status FROM seats WHERE
id = ? FOR UPDATE [NOWAIT]", seatID).Scan(&currentStatus)` (`lockAndRead` of section 4.1 on an
exact id): the store's error if it raises one, `sql.ErrNoRows` if no row has this id, the
status of the row otherwise. -/
def World.QueryRowStatus (w : World) (f : Faults) (seatID : Int) (nowait : Bool) :
    World × Except DbError String :=
  let w1 := { w with trace := w.trace ++ [Call.selectStatusForUpdate seatID nowait] }
  match f.queryError with
  | some e => (w1, .error e)
  | none =>
    match seatByID w.rows seatID with
    | none => (w1, .error DbError.errNoRows)
    | some r => (w1, .ok r.status.text)

/-- Modelled from the spec: the library call `tx.QueryRow("SELECT id, seat_number FROM seats
WHERE status = 'available' LIMIT 1 FOR UPDATE SKIP LOCKED").Scan(&seatID, &seatNumber)`
(`lockAndRead` of section 4.1 with a predicate): the store's error if it raises one,
`sql.ErrNoRows` if no row is available, the first available row otherwise. -/
def World.QueryRowAvailable (w : World) (f : Faults) : World × Except DbError (Int × String) :=
  let w1 := { w with trace := w.trace ++ [Call.selectAvailableSkipLocked] }
  match f.queryError with
  | some e => (w1, .error e)
  | none =>
    match firstAvailable w.rows with
    | none => (w1, .error DbError.errNoRows)
    | some r => (w1, .ok (r.id, r.seat_number))

/-- Modelled from the spec: the library call `tx.Exec("UPDATE seats SET status = 'occupied',
passenger_id = ? WHERE id = ?", passenger_id, seatID)` (`update` of section 4.1), which
buffers the write when it succeeds and returns whether `err == nil`. -/
def World.ExecUpdate (w : World) (f : Faults) (passenger_id : String) (seatID : Int) :
    World × Bool :=
  let w1 := { w with trace := w.trace ++ [Call.updateOccupied passenger_id seatID (!f.execFails)] }
  if f.execFails then (w1, false)
  else ({ w1 with pending := w1.pending ++ [⟨seatID, Status.occupied, some passenger_id⟩] }, true)

/-- Modelled from the spec: the library call `tx.Commit()` (`commit` of section 4.1), which
applies the buffered writes to the committed rows when it succeeds, discards them when it
fails, and returns whether `err == nil`. -/
def World.Commit (w : World) (f : Faults) : World × Bool :=
  let w1 := { w with trace := w.trace ++ [Call.commit (!f.commitFails)], pending := [] }
  if f.commitFails then (w1, false)
  else ({ w1 with rows := w.pending.foldl (fun rows wr => wr.apply rows) w.rows }, true)

/-- Modelled from the spec: the library call `tx.Rollback()` (`rollback` of section 4.1),
which `BookSeat` and `BookAnyAvailableSeat` defer: it discards what is still buffered. -/
def World.Rollback (w : World) : World :=
  { w with trace := w.trace ++ [Call.rollback], pending := [] }

/-! ## `database.go` -/

/-- The last statement of `BookSeat` (database.go:143-145), reached from both branches of
the test on `currentStatus`. -/
def BookSeat.commitStep (w : World) (f : Faults) (passengerID : String) : World :=
  match w.Commit f with
  | (w1, false) => w1.Printf (LogLine.failedToCommit passengerID)
  | (w1, true) => w1

/-- The function `BookSeat` of `database.go`: the world after one attempt on `rows`.  The
pause `time.Sleep(100 * time.Millisecond)` between the read and the decision changes no state
and is left out. -/
def BookSeat (rows : Table) (f : Faults) (passengerID : String) (seatID : Int)
    (mode : LockMode) : World :=
  match (World.start rows).Begin f with
  | (w0, false) => w0.Printf (LogLine.failedToStartTransaction passengerID)
  | (w0, true) =>
    -- defer tx.Rollback()
    World.Rollback <|
      match w0.QueryRowStatus f seatID (decide (mode = LockMode.LockModeNoWait)) with
      | (w1, .error e) =>
        if e = DbError.mysql 3572 then
          w1.Printf (LogLine.seatLockedNotWaiting passengerID seatID)
        else
          w1.Printf (LogLine.failedToQuerySeatStatus passengerID)
      | (w1, .ok currentStatus) =>
        let w2 := w1.Printf (LogLine.seesSeat passengerID seatID currentStatus)
        if currentStatus = "available" then
          let w3 := w2.Printf (LogLine.attemptingToBook passengerID)
          match w3.ExecUpdate f ("Passenger-" ++ passengerID) seatID with
          | (w4, false) => w4.Printf (LogLine.failedToUpdateSeat passengerID)
          | (w4, true) =>
            BookSeat.commitStep (w4.Printf (LogLine.successfullyBookedSeat passengerID seatID))
              f passengerID
        else
          BookSeat.commitStep (w2.Printf (LogLine.alreadyTaken passengerID seatID currentStatus))
            f passengerID

/-- The function `BookAnyAvailableSeat` of `database.go`: the world after one attempt on
`rows`. -/
def BookAnyAvailableSeat (rows : Table) (f : Faults) (passengerID : String) : World :=
  match (World.start rows).Begin f with
  | (w0, false) => w0.Printf (LogLine.failedToStartTransaction passengerID)
  | (w0, true) =>
    -- defer tx.Rollback()
    World.Rollback <|
      match w0.QueryRowAvailable f with
      | (w1, .error e) =>
        if e = DbError.errNoRows then
          w1.Printf (LogLine.noAvailableSeats passengerID)
        else
          w1.Printf (LogLine.errorFindingSeat passengerID)
      | (w1, .ok (seatID, seatNumber)) =>
        let w2 := w1.Printf (LogLine.foundAndLocked passengerID seatNumber seatID)
        match w2.ExecUpdate f ("Passenger-" ++ passengerID) seatID with
        | (w3, false) => w3
        | (w3, true) =>
          match w3.Commit f with
          | (w4, true) => w4.Printf (LogLine.successfullyBookedAny passengerID seatNumber)
          | (w4, false) => w4

/-- The function `ResetData` of `database.go`: the rows after the call and whether it
returned a nil error.  The `UPDATE` runs outside any transaction, so it is committed when it
succeeds and has no effect when it fails. -/
def ResetData (rows : Table) (execFails : Bool) (seatID : Int) : Table × Bool :=
  if execFails then (rows, false)
  else (Write.apply ⟨seatID, Status.available, none⟩ rows, true)

/-- The seat label computed in the seeding loop of `SetupDatabase`:
`fmt.Sprintf("%d%c", (i/8)+1, 'A'+(i%8))`. -/
def seatNum (i : Nat) : String :=
  toString (i / 8 + 1) ++ String.singleton (Char.ofNat ('A'.toNat + i % 8))

/-- The rows `SetupDatabase` leaves in the fresh table when every call succeeds: one row per
loop index, with the auto-increment id, the flight id, the label, the default status and a
null passenger. -/
def seededRows (n : Nat) : Table :=
  (List.range n).map fun (i : Nat) => ⟨Int.ofNat i + 1, flightID, seatNum i, Status.available, none⟩

/-- The function `SetupDatabase` of `database.go` when every store call succeeds: the rows of
the fresh table and the id of the target seat (0 and an error when no row has the label
`targetSeat`). -/
def SetupDatabase : Table × Option Int :=
  (seededRows numSeats,
    ((seededRows numSeats).find? fun r =>
      r.flight_id = flightID ∧ r.seat_number = targetSeat).map (fun r => r.id))

/-! ## Observations on a finished attempt -/

/-- The terminal outcomes of the booking protocol. -/
inductive Outcome where
  | Booked
  | ContendedFailed
  | AlreadyTaken
  | NotFound
  | TransactionError
  deriving DecidableEq, Repr

/-- The outcome a log line reports, if it reports one: the lines that only narrate progress
("Sees seat", "Attempting to book", "Found and locked") report none. -/
def LogLine.outcome : LogLine → Option Outcome
  | .failedToStartTransaction _ => some Outcome.TransactionError
  | .seatLockedNotWaiting _ _ => some Outcome.ContendedFailed
  | .failedToQuerySeatStatus _ => some Outcome.TransactionError
  | .seesSeat _ _ _ => none
  | .attemptingToBook _ => none
  | .failedToUpdateSeat _ => some Outcome.TransactionError
  | .successfullyBookedSeat _ _ => some Outcome.Booked
  | .alreadyTaken _ _ _ => some Outcome.AlreadyTaken
  | .failedToCommit _ => some Outcome.TransactionError
  | .noAvailableSeats _ => some Outcome.NotFound
  | .errorFindingSeat _ => some Outcome.TransactionError
  | .foundAndLocked _ _ _ => none
  | .successfullyBookedAny _ _ => some Outcome.Booked

/-- The outcomes one attempt reported, in the order it reported them. -/
def World.outcomes (w : World) : List Outcome := w.log.filterMap LogLine.outcome

/-- Whether a store call is an `UPDATE`. -/
def Call.isUpdate : Call → Bool
  | .updateOccupied _ _ _ => true
  | _ => false

/-- The `UPDATE` statements one attempt issued. -/
def World.updates (w : World) : List Call := w.trace.filter Call.isUpdate

/-- The persisted status of a seat. -/
def statusOf (rows : Table) (seatID : Int) : Option Status :=
  (seatByID rows seatID).map fun r => r.status

/-- The persisted owner of a seat (`none` when there is no such seat, `some none` when the
column is null). -/
def ownerOf (rows : Table) (seatID : Int) : Option (Option String) :=
  (seatByID rows seatID).map fun r => r.passenger_id

/-- Status/owner consistency of a row: the owner is non-null iff the status is occupied. -/
def Seat.consistent (r : Seat) : Prop :=
  r.passenger_id ≠ none ↔ r.status = Status.occupied

instance (r : Seat) : Decidable r.consistent := by
  unfold Seat.consistent
  infer_instance

/-- The number of available rows. -/
def countAvailable (rows : Table) : Nat :=
  rows.countP fun r => r.status = Status.available

/-- The number of occupied rows. -/
def countOccupied (rows : Table) : Nat :=
  rows.countP fun r => r.status = Status.occupied

/-- The bookings one attempt committed: the (seat id, owner) of each successful `UPDATE` of a
transaction whose commit succeeded. -/
def World.bookings (w : World) : List (Int × String) :=
  if Call.commit true ∈ w.trace then
    w.trace.filterMap fun c =>
      match c with
      | .updateOccupied p s true => some (s, p)
      | _ => none
  else []

/-! ## Sequences of operations (`main.go`)

The goroutines of `main` run their attempts concurrently; the row lock taken by the locked
`SELECT` lets one transaction at a time between its read and its commit, so a run is embedded
as the attempts in the order in which they get the lock, each starting from the rows the
previous one left. -/

/-- One operation of the program on the table, with the store's behaviour during it. -/
inductive Op where
  | bookSeat (f : Faults) (passengerID : String) (seatID : Int) (mode : LockMode)
  | bookAnyAvailableSeat (f : Faults) (passengerID : String)
  | resetData (execFails : Bool) (seatID : Int)
  deriving DecidableEq, Repr

/-- The rows an operation leaves. -/
def Op.run (rows : Table) : Op → Table
  | .bookSeat f passengerID seatID mode => (BookSeat rows f passengerID seatID mode).rows
  | .bookAnyAvailableSeat f passengerID => (BookAnyAvailableSeat rows f passengerID).rows
  | .resetData execFails seatID => (ResetData rows execFails seatID).1

/-- The rows a sequence of operations leaves. -/
def runOps (rows : Table) (ops : List Op) : Table :=
  ops.foldl Op.run rows

/-- One `BookSeat` attempt of a run: who, in which lock mode, under which store behaviour. -/
structure Attempt where
  passengerID : String
  mode : LockMode
  faults : Faults
  deriving DecidableEq, Repr

/-- The first simulation of `main` (`BookSeat` goroutines on one seat), in the order
the row lock serialises the attempts: for each attempt, the rows it started from and the world
it ended in. -/
def serialBookSeat (seatID : Int) : Table → List Attempt → List (Table × World)
  | _, [] => []
  | rows, a :: rest =>
    (rows, BookSeat rows a.faults a.passengerID seatID a.mode) ::
      serialBookSeat seatID (BookSeat rows a.faults a.passengerID seatID a.mode).rows rest

/-- The second simulation of `main` (`BookAnyAvailableSeat` goroutines), in the order the
store serialises the attempts: for each attempt, the rows it started from and the world it
ended in. -/
def serialBookAny : Table → List (String × Faults) → List (Table × World)
  | _, [] => []
  | rows, a :: rest =>
    (rows, BookAnyAvailableSeat rows a.2 a.1) ::
      serialBookAny (BookAnyAvailableSeat rows a.2 a.1).rows rest

/-- The rows left at the end of a run that started from `rows`. -/
def finalRows (rows : Table) (run : List (Table × World)) : Table :=
  run.foldl (fun _ s => s.2.rows) rows

/-- Whether an attempt changed the seat from available to occupied. -/
def madeOccupied (seatID : Int) (s : Table × World) : Bool :=
  decide (statusOf s.1 seatID = some Status.available) &&
    decide (statusOf s.2.rows seatID = some Status.occupied)

/-- The second simulation of `main` with no store failure, for passengers `ps` in the order
the store serialises them. -/
def anySimulation (rows : Table) (ps : List String) : List (Table × World) :=
  serialBookAny rows (ps.map fun p => (p, Faults.none))

/-- The bookings committed by the attempts of a run, in order. -/
def runBookings : List (Table × World) → List (Int × String)
  | [] => []
  | s :: rest => s.2.bookings ++ runBookings rest

/-- The passenger ids of the goroutines `main` starts: `strconv.Itoa(i)` for `i` from 1 to
`numPassengers`. -/
def simulationPassengers : List String :=
  (List.range numPassengers).map fun i => toString (i + 1)

/-- The number a list of decimal digits denotes, continuing from `start`. -/
def decodeDigits (cs : List Char) (start : Nat) : Nat :=
  cs.foldl (fun acc c => 10 * acc + (c.toNat - 48)) start

/-! ## Closed forms of one attempt -/

theorem BookSeat_eq (rows : Table) (f : Faults) (passengerID : String) (seatID : Int)
    (mode : LockMode) :
    BookSeat rows f passengerID seatID mode =
      if f.beginFails then
        ⟨rows, [], [Call.begin false], [LogLine.failedToStartTransaction passengerID]⟩
      else
        let sel := Call.selectStatusForUpdate seatID (decide (mode = LockMode.LockModeNoWait))
        let upd := Call.updateOccupied ("Passenger-" ++ passengerID) seatID (!f.execFails)
        match f.queryError with
        | some e =>
          ⟨rows, [], [Call.begin true, sel, Call.rollback],
            [if e = DbError.mysql 3572 then LogLine.seatLockedNotWaiting passengerID seatID
              else LogLine.failedToQuerySeatStatus passengerID]⟩
        | none =>
          match seatByID rows seatID with
          | none =>
            ⟨rows, [], [Call.begin true, sel, Call.rollback],
              [LogLine.failedToQuerySeatStatus passengerID]⟩
          | some r =>
            match r.status with
            | Status.available =>
              if f.execFails then
                ⟨rows, [], [Call.begin true, sel, upd, Call.rollback],
                  [LogLine.seesSeat passengerID seatID "available",
                    LogLine.attemptingToBook passengerID,
                    LogLine.failedToUpdateSeat passengerID]⟩
              else if f.commitFails then
                ⟨rows, [], [Call.begin true, sel, upd, Call.commit false, Call.rollback],
                  [LogLine.seesSeat passengerID seatID "available",
                    LogLine.attemptingToBook passengerID,
                    LogLine.successfullyBookedSeat passengerID seatID,
                    LogLine.failedToCommit passengerID]⟩
              else
                ⟨Write.apply ⟨seatID, Status.occupied, some ("Passenger-" ++ passengerID)⟩ rows, [],
                  [Call.begin true, sel, upd, Call.commit true, Call.rollback],
                  [LogLine.seesSeat passengerID seatID "available",
                    LogLine.attemptingToBook passengerID,
                    LogLine.successfullyBookedSeat passengerID seatID]⟩
            | Status.occupied =>
              if f.commitFails then
                ⟨rows, [], [Call.begin true, sel, Call.commit false, Call.rollback],
                  [LogLine.seesSeat passengerID seatID "occupied",
                    LogLine.alreadyTaken passengerID seatID "occupied",
                    LogLine.failedToCommit passengerID]⟩
              else
                ⟨rows, [], [Call.begin true, sel, Call.commit true, Call.rollback],
                  [LogLine.seesSeat passengerID seatID "occupied",
                    LogLine.alreadyTaken passengerID seatID "occupied"]⟩ := by
  obtain ⟨fb, fq, fe, fc⟩ := f
  cases fb <;> cases fq <;> simp [BookSeat, World.start, World.Begin, World.Printf,
    World.QueryRowStatus, World.Rollback]
  · cases hrow : seatByID rows seatID with
    | none => simp
    | some r =>
      obtain ⟨rid, rfl0, rsn, rst, rpa⟩ := r
      cases rst <;> cases fe <;> cases fc <;>
        simp [Status.text, World.ExecUpdate, World.Commit, World.Printf, BookSeat.commitStep]
  · split <;> simp_all

theorem BookAnyAvailableSeat_eq (rows : Table) (f : Faults) (passengerID : String) :
    BookAnyAvailableSeat rows f passengerID =
      if f.beginFails then
        ⟨rows, [], [Call.begin false], [LogLine.failedToStartTransaction passengerID]⟩
      else
        match f.queryError with
        | some e =>
          ⟨rows, [], [Call.begin true, Call.selectAvailableSkipLocked, Call.rollback],
            [if e = DbError.errNoRows then LogLine.noAvailableSeats passengerID
              else LogLine.errorFindingSeat passengerID]⟩
        | none =>
          match firstAvailable rows with
          | none =>
            ⟨rows, [], [Call.begin true, Call.selectAvailableSkipLocked, Call.rollback],
              [LogLine.noAvailableSeats passengerID]⟩
          | some r =>
            let upd := Call.updateOccupied ("Passenger-" ++ passengerID) r.id (!f.execFails)
            if f.execFails then
              ⟨rows, [], [Call.begin true, Call.selectAvailableSkipLocked, upd, Call.rollback],
                [LogLine.foundAndLocked passengerID r.seat_number r.id]⟩
            else if f.commitFails then
              ⟨rows, [], [Call.begin true, Call.selectAvailableSkipLocked, upd,
                  Call.commit false, Call.rollback],
                [LogLine.foundAndLocked passengerID r.seat_number r.id]⟩
            else
              ⟨Write.apply ⟨r.id, Status.occupied, some ("Passenger-" ++ passengerID)⟩ rows, [],
                [Call.begin true, Call.selectAvailableSkipLocked, upd,
                  Call.commit true, Call.rollback],
                [LogLine.foundAndLocked passengerID r.seat_number r.id,
                  LogLine.successfullyBookedAny passengerID r.seat_number]⟩ := by
  obtain ⟨fb, fq, fe, fc⟩ := f
  cases fb <;> cases fq <;> simp [BookAnyAvailableSeat, World.start, World.Begin, World.Printf,
    World.QueryRowAvailable, World.Rollback]
  · cases hrow : firstAvailable rows with
    | none => simp
    | some r =>
      cases fe <;> cases fc <;> simp [World.ExecUpdate, World.Commit, World.Printf]
  · split <;> simp_all

/-! ## One attempt -/

/-- C1, as the code has it: exact-target decision of BookSeat.  When begin succeeds and the
locked read returns the row of the seat, then (a) if the status read is "available", BookSeat
issues exactly one UPDATE, on that seat, setting it occupied with the string "Passenger-"
followed by the passenger id as owner (and when the UPDATE and the commit succeed the rows are
the old rows with that write applied), and (b) if the status read is anything else, BookSeat
issues no UPDATE and leaves the rows as they were. -/
theorem BookSeat_exact_target_decision (rows : Table) (f : Faults) (passengerID : String)
    (seatID : Int) (mode : LockMode) (r : Seat)
    (hbegin : f.beginFails = false) (hquery : f.queryError = none)
    (hread : seatByID rows seatID = some r) :
    (r.status.text = "available" →
      (BookSeat rows f passengerID seatID mode).updates =
          [Call.updateOccupied ("Passenger-" ++ passengerID) seatID (!f.execFails)] ∧
        (f.execFails = false → f.commitFails = false →
          (BookSeat rows f passengerID seatID mode).rows =
            Write.apply ⟨seatID, Status.occupied, some ("Passenger-" ++ passengerID)⟩ rows)) ∧
    (r.status.text ≠ "available" →
      (BookSeat rows f passengerID seatID mode).updates = [] ∧
        (BookSeat rows f passengerID seatID mode).rows = rows) := by
  obtain ⟨fb, fq, fe, fc⟩ := f
  obtain ⟨rid, rfl0, rsn, rst, rpa⟩ := r
  simp only at hbegin hquery
  subst hbegin hquery
  rw [BookSeat_eq]
  cases rst <;> cases fe <;> cases fc <;>
    simp [hread, Status.text, World.updates, Call.isUpdate]

/-- The instance of C1 at a one-seat table, passenger "1", seat 1, blocking mode. -/
theorem BookSeat_exact_target_decision_witness :
    (Faults.none.beginFails = false ∧ Faults.none.queryError = none ∧
      seatByID [⟨1, "SG-101", "1A", Status.available, none⟩] 1 =
        some ⟨1, "SG-101", "1A", Status.available, none⟩) ∧
    (BookSeat [⟨1, "SG-101", "1A", Status.available, none⟩] Faults.none "1" 1
        LockMode.LockModeWait).updates = [Call.updateOccupied "Passenger-1" 1 true] :=
  ⟨⟨rfl, rfl, rfl⟩,
    ((BookSeat_exact_target_decision [⟨1, "SG-101", "1A", Status.available, none⟩] Faults.none
      "1" 1 LockMode.LockModeWait ⟨1, "SG-101", "1A", Status.available, none⟩ rfl rfl rfl).1
        rfl).1⟩

/-- C1 as stated fails on the owner: for passenger id "1" and the available seat 1, with no
store failure, the one UPDATE of BookSeat writes the owner "Passenger-1", which is not the
passenger id "1", and that is the owner the committed row ends with. -/
theorem BookSeat_owner_is_not_the_passenger_id :
    (BookSeat [⟨1, "SG-101", "1A", Status.available, none⟩] Faults.none "1" 1
        LockMode.LockModeWait).updates = [Call.updateOccupied "Passenger-1" 1 true] ∧
    (BookSeat [⟨1, "SG-101", "1A", Status.available, none⟩] Faults.none "1" 1
        LockMode.LockModeWait).updates ≠ [Call.updateOccupied "1" 1 true] ∧
    ownerOf (BookSeat [⟨1, "SG-101", "1A", Status.available, none⟩] Faults.none "1" 1
        LockMode.LockModeWait).rows 1 = some (some "Passenger-1") ∧
    ownerOf (BookSeat [⟨1, "SG-101", "1A", Status.available, none⟩] Faults.none "1" 1
        LockMode.LockModeWait).rows 1 ≠ some (some "1") := by
  refine ⟨rfl, by decide, rfl, by decide⟩

/-- C6: non-blocking contention handling.  When BookSeat runs with LockModeNoWait, begin
succeeds and the locked read fails with error e, the only store calls are begin, the
SELECT ... FOR UPDATE NOWAIT and rollback (no UPDATE, no commit), and the rows are unchanged;
if e is MySQL error 3572 the attempt reports contention and nothing else, and for every
other error it reports a query failure and nothing else. -/
theorem BookSeat_nowait_contention (rows : Table) (f : Faults) (passengerID : String)
    (seatID : Int) (e : DbError)
    (hbegin : f.beginFails = false) (hquery : f.queryError = some e) :
    (BookSeat rows f passengerID seatID LockMode.LockModeNoWait).trace =
        [Call.begin true, Call.selectStatusForUpdate seatID true, Call.rollback] ∧
      (BookSeat rows f passengerID seatID LockMode.LockModeNoWait).rows = rows ∧
      (BookSeat rows f passengerID seatID LockMode.LockModeNoWait).pending = [] ∧
      (e = DbError.mysql 3572 →
        (BookSeat rows f passengerID seatID LockMode.LockModeNoWait).log =
            [LogLine.seatLockedNotWaiting passengerID seatID] ∧
          (BookSeat rows f passengerID seatID LockMode.LockModeNoWait).outcomes =
            [Outcome.ContendedFailed]) ∧
      (e ≠ DbError.mysql 3572 →
        (BookSeat rows f passengerID seatID LockMode.LockModeNoWait).log =
            [LogLine.failedToQuerySeatStatus passengerID] ∧
          (BookSeat rows f passengerID seatID LockMode.LockModeNoWait).outcomes =
            [Outcome.TransactionError]) := by
  obtain ⟨fb, fq, fe, fc⟩ := f
  simp only at hbegin hquery
  subst hbegin hquery
  rw [BookSeat_eq]
  refine ⟨by simp, by simp, by simp, ?_, ?_⟩
  · intro he
    simp [he, World.outcomes, LogLine.outcome]
  · intro he
    simp [he, World.outcomes, LogLine.outcome]

/-- The instance of C6 at a one-seat table whose row is locked by another transaction. -/
theorem BookSeat_nowait_contention_witness :
    ((⟨false, some (DbError.mysql 3572), false, false⟩ : Faults).beginFails = false ∧
      (⟨false, some (DbError.mysql 3572), false, false⟩ : Faults).queryError =
        some (DbError.mysql 3572)) ∧
    (BookSeat [⟨1, "SG-101", "1A", Status.available, none⟩]
        ⟨false, some (DbError.mysql 3572), false, false⟩ "2" 1 LockMode.LockModeNoWait).outcomes =
      [Outcome.ContendedFailed] :=
  ⟨⟨rfl, rfl⟩,
    ((BookSeat_nowait_contention [⟨1, "SG-101", "1A", Status.available, none⟩]
      ⟨false, some (DbError.mysql 3572), false, false⟩ "2" 1 (DbError.mysql 3572)
      rfl rfl).2.2.2.1 rfl).2⟩

/-- C7: rollback on every exit.  For BookSeat and for BookAnyAvailableSeat: when begin fails
the failed begin is the only store call; when begin succeeds the trace starts with the
successful begin and ends with a rollback, which is called exactly once, on every path -
so in particular on every path without a successful commit - and nothing is left buffered. -/
theorem rollback_on_every_exit (rows : Table) (f : Faults) (passengerID : String)
    (seatID : Int) (mode : LockMode) :
    (f.beginFails = true →
      (BookSeat rows f passengerID seatID mode).trace = [Call.begin false] ∧
        (BookAnyAvailableSeat rows f passengerID).trace = [Call.begin false]) ∧
    (f.beginFails = false →
      ∀ w ∈ [BookSeat rows f passengerID seatID mode, BookAnyAvailableSeat rows f passengerID],
        w.trace.head? = some (Call.begin true) ∧
          w.trace.getLast? = some Call.rollback ∧
          w.trace.count Call.rollback = 1 ∧
          w.pending = []) := by
  obtain ⟨fb, fq, fe, fc⟩ := f
  rw [BookSeat_eq, BookAnyAvailableSeat_eq]
  cases fb
  · refine ⟨by simp, fun _ => ?_⟩
    intro w hw
    simp only [List.mem_cons, List.mem_singleton, List.not_mem_nil, or_false] at hw
    rcases hw with rfl | rfl
    · cases fq with
      | some e => simp
      | none =>
        cases hrow : seatByID rows seatID with
        | none => simp
        | some r =>
          obtain ⟨rid, rfl0, rsn, rst, rpa⟩ := r
          cases rst <;> cases fe <;> cases fc <;> simp
    · cases fq with
      | some e => simp
      | none =>
        cases hrow : firstAvailable rows with
        | none => simp
        | some r => cases fe <;> cases fc <;> simp
  · simp

/-- A failing commit leaves the committed rows as they were, in both booking functions. -/
theorem rows_unchanged_of_commit_failure (rows : Table) (f : Faults) (passengerID : String)
    (seatID : Int) (mode : LockMode) (hc : f.commitFails = true) :
    (BookSeat rows f passengerID seatID mode).rows = rows ∧
      (BookAnyAvailableSeat rows f passengerID).rows = rows := by
  obtain ⟨fb, fq, fe, fc⟩ := f
  simp only at hc
  subst hc
  rw [BookSeat_eq, BookAnyAvailableSeat_eq]
  constructor
  · cases fb <;> cases fq <;> simp
    cases hrow : seatByID rows seatID with
    | none => simp
    | some r =>
      obtain ⟨rid, rfl0, rsn, rst, rpa⟩ := r
      cases rst <;> cases fe <;> simp
  · cases fb <;> cases fq <;> simp
    cases hrow : firstAvailable rows with
    | none => simp
    | some r => cases fe <;> simp

/-- BookSeat reports at least one and at most two outcomes. -/
theorem BookSeat_outcomes_length (rows : Table) (f : Faults) (passengerID : String)
    (seatID : Int) (mode : LockMode) :
    1 ≤ (BookSeat rows f passengerID seatID mode).outcomes.length ∧
      (BookSeat rows f passengerID seatID mode).outcomes.length ≤ 2 := by
  obtain ⟨fb, fq, fe, fc⟩ := f
  rw [BookSeat_eq]
  cases fb <;> cases fq <;> simp [World.outcomes, LogLine.outcome]
  · cases hrow : seatByID rows seatID with
    | none => simp [LogLine.outcome]
    | some r =>
      obtain ⟨rid, rfl0, rsn, rst, rpa⟩ := r
      cases rst <;> cases fe <;> cases fc <;> simp [LogLine.outcome]
  · split <;> simp [LogLine.outcome]

/-- BookAnyAvailableSeat reports at most one outcome. -/
theorem BookAnyAvailableSeat_outcomes_length (rows : Table) (f : Faults)
    (passengerID : String) :
    (BookAnyAvailableSeat rows f passengerID).outcomes.length ≤ 1 := by
  obtain ⟨fb, fq, fe, fc⟩ := f
  rw [BookAnyAvailableSeat_eq]
  cases fb <;> cases fq <;> simp [World.outcomes, LogLine.outcome]
  · cases hrow : firstAvailable rows with
    | none => simp [LogLine.outcome]
    | some r => cases fe <;> cases fc <;> simp [LogLine.outcome]
  · split <;> simp [LogLine.outcome]

/-- C4: atomicity under commit failure, evaluated on a one-seat table whose seat is available,
with the UPDATE succeeding and the commit failing.  The rows are left as they were by both
functions, but BookSeat reports the booking (logged before the commit) and then the commit
failure, and BookAnyAvailableSeat reports no outcome at all. -/
theorem commit_failure_reports :
    (BookSeat [⟨1, "SG-101", "1A", Status.available, none⟩] ⟨false, none, false, true⟩ "1" 1
        LockMode.LockModeWait).rows = [⟨1, "SG-101", "1A", Status.available, none⟩] ∧
    (BookSeat [⟨1, "SG-101", "1A", Status.available, none⟩] ⟨false, none, false, true⟩ "1" 1
        LockMode.LockModeWait).outcomes = [Outcome.Booked, Outcome.TransactionError] ∧
    (BookAnyAvailableSeat [⟨1, "SG-101", "1A", Status.available, none⟩]
        ⟨false, none, false, true⟩ "1").rows = [⟨1, "SG-101", "1A", Status.available, none⟩] ∧
    (BookAnyAvailableSeat [⟨1, "SG-101", "1A", Status.available, none⟩]
        ⟨false, none, false, true⟩ "1").outcomes = [] := by
  refine ⟨rfl, rfl, rfl, rfl⟩

/-- C5: exactly one outcome per attempt, evaluated where the code departs from it.  On a
failing commit BookSeat reports two outcomes (booked or already taken, then a transaction
error); on a failing UPDATE and on a failing commit BookAnyAvailableSeat reports none. -/
theorem outcome_count_at_store_failures :
    (BookSeat [⟨1, "SG-101", "1A", Status.available, none⟩] ⟨false, none, false, true⟩ "1" 1
        LockMode.LockModeWait).outcomes.length = 2 ∧
    (BookSeat [⟨1, "SG-101", "1A", Status.occupied, some "Passenger-2"⟩]
        ⟨false, none, false, true⟩ "1" 1 LockMode.LockModeWait).outcomes =
      [Outcome.AlreadyTaken, Outcome.TransactionError] ∧
    (BookAnyAvailableSeat [⟨1, "SG-101", "1A", Status.available, none⟩]
        ⟨false, none, true, false⟩ "1").outcomes.length = 0 ∧
    (BookAnyAvailableSeat [⟨1, "SG-101", "1A", Status.available, none⟩]
        ⟨false, none, false, true⟩ "1").outcomes.length = 0 := by
  refine ⟨rfl, rfl, rfl, rfl⟩

/-! ## Writes and lookups -/

/-- The owner written for a passenger determines the passenger. -/
theorem passengerOwner_injective (p q : String) (h : "Passenger-" ++ p = "Passenger-" ++ q) :
    p = q := by
  have := congrArg String.data h
  simp only [String.data_append] at this
  exact String.ext (List.append_cancel_left this)

theorem Write.apply_ids (wr : Write) (rows : Table) :
    (wr.apply rows).map (fun r => r.id) = rows.map (fun r => r.id) := by
  induction rows with
  | nil => rfl
  | cons x xs ih =>
    simp only [Write.apply, List.map_cons, List.cons.injEq] at ih ⊢
    refine ⟨?_, ih⟩
    split <;> rfl

theorem Write.apply_length (wr : Write) (rows : Table) :
    (wr.apply rows).length = rows.length := by
  simp [Write.apply]

theorem Write.apply_of_not_mem (wr : Write) (rows : Table)
    (h : wr.seatID ∉ rows.map (fun r => r.id)) : wr.apply rows = rows := by
  induction rows with
  | nil => rfl
  | cons x xs ih =>
    simp only [List.map_cons, List.mem_cons, not_or] at h
    have hx : ¬ x.id = wr.seatID := fun e => h.1 e.symm
    have := ih h.2
    simp only [Write.apply, List.map_cons, hx, if_false, List.cons.injEq, true_and] at this ⊢
    exact this

theorem seatByID_apply_same (wr : Write) (rows : Table) :
    seatByID (wr.apply rows) wr.seatID =
      (seatByID rows wr.seatID).map fun r =>
        { r with status := wr.status, passenger_id := wr.passenger_id } := by
  induction rows with
  | nil => rfl
  | cons x xs ih =>
    simp only [seatByID, Write.apply, List.map_cons, List.find?_cons] at ih ⊢
    by_cases hx : x.id = wr.seatID
    · simp [hx]
    · simp [hx, ih]

theorem seatByID_apply_other (wr : Write) (rows : Table) (seatID : Int)
    (h : seatID ≠ wr.seatID) : seatByID (wr.apply rows) seatID = seatByID rows seatID := by
  induction rows with
  | nil => rfl
  | cons x xs ih =>
    simp only [seatByID, Write.apply, List.map_cons, List.find?_cons] at ih ⊢
    by_cases hx : x.id = wr.seatID
    · have hne : ¬ x.id = seatID := fun e => h (e.symm.trans hx)
      simp [hx, hne, ih, h.symm]
    · simp [hx, ih]

theorem Write.apply_consistent (wr : Write) (rows : Table)
    (hw : wr.passenger_id ≠ none ↔ wr.status = Status.occupied)
    (h : ∀ r ∈ rows, r.consistent) : ∀ r ∈ wr.apply rows, r.consistent := by
  intro r hr
  simp only [Write.apply, List.mem_map] at hr
  obtain ⟨r0, hr0, rfl⟩ := hr
  split
  · exact hw
  · exact h r0 hr0

/-- BookSeat leaves the rows as they were or applies its one write to them. -/
theorem BookSeat_rows_cases (rows : Table) (f : Faults) (passengerID : String) (seatID : Int)
    (mode : LockMode) :
    (BookSeat rows f passengerID seatID mode).rows = rows ∨
      (BookSeat rows f passengerID seatID mode).rows =
        Write.apply ⟨seatID, Status.occupied, some ("Passenger-" ++ passengerID)⟩ rows := by
  obtain ⟨fb, fq, fe, fc⟩ := f
  rw [BookSeat_eq]
  cases fb <;> cases fq <;> simp
  cases hrow : seatByID rows seatID with
  | none => simp
  | some r =>
    obtain ⟨rid, rfl0, rsn, rst, rpa⟩ := r
    cases rst <;> cases fe <;> cases fc <;> simp

/-- BookAnyAvailableSeat leaves the rows as they were or applies its one write to them. -/
theorem BookAnyAvailableSeat_rows_cases (rows : Table) (f : Faults) (passengerID : String) :
    (BookAnyAvailableSeat rows f passengerID).rows = rows ∨
      ∃ seatID, (BookAnyAvailableSeat rows f passengerID).rows =
        Write.apply ⟨seatID, Status.occupied, some ("Passenger-" ++ passengerID)⟩ rows := by
  obtain ⟨fb, fq, fe, fc⟩ := f
  rw [BookAnyAvailableSeat_eq]
  cases fb <;> cases fq <;> simp
  cases hrow : firstAvailable rows with
  | none => simp
  | some r =>
    cases fe <;> cases fc <;> simp
    exact Or.inr ⟨r.id, rfl⟩

theorem Op.run_consistent (rows : Table) (op : Op) (h : ∀ r ∈ rows, r.consistent) :
    ∀ r ∈ op.run rows, r.consistent := by
  cases op with
  | bookSeat f passengerID seatID mode =>
    rcases BookSeat_rows_cases rows f passengerID seatID mode with e | e
    · simpa [Op.run, e] using h
    · simp only [Op.run, e]
      exact Write.apply_consistent _ rows (by simp) h
  | bookAnyAvailableSeat f passengerID =>
    rcases BookAnyAvailableSeat_rows_cases rows f passengerID with e | ⟨seatID, e⟩
    · simpa [Op.run, e] using h
    · simp only [Op.run, e]
      exact Write.apply_consistent _ rows (by simp) h
  | resetData execFails seatID =>
    cases execFails
    · simp only [Op.run, ResetData, Bool.false_eq_true, if_false]
      exact Write.apply_consistent _ rows (by simp) h
    · simpa [Op.run, ResetData] using h

theorem Op.run_length (rows : Table) (op : Op) : (op.run rows).length = rows.length := by
  cases op with
  | bookSeat f passengerID seatID mode =>
    rcases BookSeat_rows_cases rows f passengerID seatID mode with e | e <;>
      simp [Op.run, e, Write.apply_length]
  | bookAnyAvailableSeat f passengerID =>
    rcases BookAnyAvailableSeat_rows_cases rows f passengerID with e | ⟨seatID, e⟩ <;>
      simp [Op.run, e, Write.apply_length]
  | resetData execFails seatID =>
    cases execFails <;> simp [Op.run, ResetData, Write.apply_length]

theorem runOps_consistent (ops : List Op) :
    ∀ rows : Table, (∀ r ∈ rows, r.consistent) →
      (∀ r ∈ runOps rows ops, r.consistent) ∧ (runOps rows ops).length = rows.length := by
  induction ops with
  | nil => intro rows h; exact ⟨h, rfl⟩
  | cons op ops ih =>
    intro rows h
    have := ih (op.run rows) (Op.run_consistent rows op h)
    simp only [runOps, List.foldl_cons] at this ⊢
    exact ⟨this.1, this.2.trans (Op.run_length rows op)⟩

theorem seededRows_fresh (n : Nat) :
    ∀ r ∈ seededRows n, r.status = Status.available ∧ r.passenger_id = none := by
  intro r hr
  simp only [seededRows, List.mem_map] at hr
  obtain ⟨i, -, rfl⟩ := hr
  exact ⟨rfl, rfl⟩

/-- C8: status/owner consistency.  In every table reached from the seeded table (n seats, each
available with a null owner) by any sequence of BookSeat, BookAnyAvailableSeat and ResetData
operations, under any behaviour of the store, every seat has a non-null owner if and only if
its status is occupied; and the table still has its n seats. -/
theorem status_owner_consistent (n : Nat) (ops : List Op) :
    (∀ r ∈ runOps (seededRows n) ops, r.passenger_id ≠ none ↔ r.status = Status.occupied) ∧
      (runOps (seededRows n) ops).length = n := by
  have h := runOps_consistent ops (seededRows n) (fun r hr => by
    have := seededRows_fresh n r hr
    simp [Seat.consistent, this.1, this.2])
  refine ⟨fun r hr => h.1 r hr, ?_⟩
  rw [h.2]
  simp [seededRows]

/-! ## Reset -/

theorem Write.apply_idem (wr : Write) (rows : Table) : wr.apply (wr.apply rows) = wr.apply rows := by
  induction rows with
  | nil => rfl
  | cons x xs ih =>
    simp only [Write.apply, List.map_cons, List.cons.injEq] at ih ⊢
    refine ⟨?_, ih⟩
    by_cases hx : x.id = wr.seatID <;> simp [hx]

theorem statusOf_apply_same (wr : Write) (rows : Table) (s : Status)
    (h : statusOf rows wr.seatID = some s) :
    statusOf (wr.apply rows) wr.seatID = some wr.status ∧
      ownerOf (wr.apply rows) wr.seatID = some wr.passenger_id := by
  simp only [statusOf, ownerOf, seatByID_apply_same] at h ⊢
  cases hr : seatByID rows wr.seatID with
  | none => simp [hr] at h
  | some r => simp

/-- With no store failure, BookSeat on an available seat applies its write and reports the
booking. -/
theorem BookSeat_books (rows : Table) (passengerID : String) (seatID : Int) (mode : LockMode)
    (hav : statusOf rows seatID = some Status.available) :
    (BookSeat rows Faults.none passengerID seatID mode).rows =
        Write.apply ⟨seatID, Status.occupied, some ("Passenger-" ++ passengerID)⟩ rows ∧
      (BookSeat rows Faults.none passengerID seatID mode).outcomes = [Outcome.Booked] := by
  rw [BookSeat_eq]
  simp only [statusOf] at hav
  cases hr : seatByID rows seatID with
  | none => simp [hr] at hav
  | some r =>
    obtain ⟨rid, rfl0, rsn, rst, rpa⟩ := r
    simp only [hr, Option.map_some', Option.some.injEq] at hav
    subst hav
    simp [Faults.none, World.outcomes, LogLine.outcome]

/-- C9: idempotent reset.  Starting from rows in which the seat is available, a BookSeat
attempt with no store failure commits the booking (seat occupied, owned by the passenger's
tag); ResetData on that seat then yields status available and a null owner, which is the
status and owner of every seeded row; applying ResetData twice (to any table) equals applying
it once; and a following BookSeat attempt with no store failure books the seat for the next
passenger. -/
theorem reset_after_booking (rows : Table) (seatID : Int) (passengerID nextPassengerID : String)
    (mode nextMode : LockMode) (hav : statusOf rows seatID = some Status.available) :
    (statusOf (BookSeat rows Faults.none passengerID seatID mode).rows seatID =
        some Status.occupied ∧
      ownerOf (BookSeat rows Faults.none passengerID seatID mode).rows seatID =
        some (some ("Passenger-" ++ passengerID))) ∧
    (statusOf (ResetData (BookSeat rows Faults.none passengerID seatID mode).rows false
        seatID).1 seatID = some Status.available ∧
      ownerOf (ResetData (BookSeat rows Faults.none passengerID seatID mode).rows false
        seatID).1 seatID = some none ∧
      (ResetData (BookSeat rows Faults.none passengerID seatID mode).rows false seatID).2 =
        true) ∧
    (∀ n, ∀ r ∈ seededRows n, r.status = Status.available ∧ r.passenger_id = none) ∧
    (∀ t : Table, ResetData (ResetData t false seatID).1 false seatID =
      ResetData t false seatID) ∧
    ((BookSeat (ResetData (BookSeat rows Faults.none passengerID seatID mode).rows false
        seatID).1 Faults.none nextPassengerID seatID nextMode).outcomes = [Outcome.Booked] ∧
      statusOf (BookSeat (ResetData (BookSeat rows Faults.none passengerID seatID mode).rows
        false seatID).1 Faults.none nextPassengerID seatID nextMode).rows seatID =
          some Status.occupied ∧
      ownerOf (BookSeat (ResetData (BookSeat rows Faults.none passengerID seatID mode).rows
        false seatID).1 Faults.none nextPassengerID seatID nextMode).rows seatID =
          some (some ("Passenger-" ++ nextPassengerID))) := by
  have hb := BookSeat_books rows passengerID seatID mode hav
  have h1 := statusOf_apply_same ⟨seatID, Status.occupied, some ("Passenger-" ++ passengerID)⟩
    rows _ hav
  rw [← hb.1] at h1
  have h2 := statusOf_apply_same ⟨seatID, Status.available, none⟩
    (BookSeat rows Faults.none passengerID seatID mode).rows _ h1.1
  have hreset : (ResetData (BookSeat rows Faults.none passengerID seatID mode).rows false
      seatID).1 = Write.apply ⟨seatID, Status.available, none⟩
        (BookSeat rows Faults.none passengerID seatID mode).rows := by
    simp [ResetData]
  rw [← hreset] at h2
  have hb2 := BookSeat_books _ nextPassengerID seatID nextMode h2.1
  have h3 := statusOf_apply_same
    ⟨seatID, Status.occupied, some ("Passenger-" ++ nextPassengerID)⟩ _ _ h2.1
  rw [← hb2.1] at h3
  refine ⟨h1, ⟨h2.1, h2.2, by simp [ResetData]⟩, seededRows_fresh, ?_, hb2.2, h3⟩
  intro t
  simp [ResetData, Write.apply_idem]

/-- The instance of C9 at the seeded one-seat table, booked by passenger "1" and, after the
reset, by passenger "2". -/
theorem reset_after_booking_witness :
    statusOf [⟨1, "SG-101", "1A", Status.available, none⟩] 1 = some Status.available ∧
    ownerOf (BookSeat (ResetData (BookSeat [⟨1, "SG-101", "1A", Status.available, none⟩]
        Faults.none "1" 1 LockMode.LockModeWait).rows false 1).1 Faults.none "2" 1
        LockMode.LockModeWait).rows 1 = some (some "Passenger-2") :=
  ⟨rfl, (reset_after_booking [⟨1, "SG-101", "1A", Status.available, none⟩] 1 "1" "2"
    LockMode.LockModeWait LockMode.LockModeWait rfl).2.2.2.2.2.2⟩

/-! ## Seat labels -/

theorem digitChar_toNat (k : Nat) (hk : k < 10) : (Nat.digitChar k).toNat - 48 = k := by
  interval_cases k <;> rfl

theorem decodeDigits_toDigitsCore : ∀ (fuel n : Nat) (ds : List Char), n < fuel →
    decodeDigits (Nat.toDigitsCore 10 fuel n ds) 0 = decodeDigits ds n := by
  intro fuel
  induction fuel with
  | zero => intro n ds h; omega
  | succ fuel ih =>
    intro n ds h
    simp only [Nat.toDigitsCore]
    split
    · simp only [decodeDigits, List.foldl_cons]
      rw [digitChar_toNat _ (Nat.mod_lt _ (by decide))]
      congr 1
      omega
    · rw [ih (n / 10) _ (by omega)]
      simp only [decodeDigits, List.foldl_cons]
      rw [digitChar_toNat _ (Nat.mod_lt _ (by decide))]
      congr 1
      omega

theorem repr_injective (n m : Nat) (h : Nat.repr n = Nat.repr m) : n = m := by
  have h1 : Nat.toDigits 10 n = Nat.toDigits 10 m := by
    have := congrArg String.data h
    simpa [Nat.repr, List.asString] using this
  have hn := decodeDigits_toDigitsCore (n + 1) n [] (by omega)
  have hm := decodeDigits_toDigitsCore (m + 1) m [] (by omega)
  simp only [Nat.toDigits] at h1
  rw [h1] at hn
  simpa [decodeDigits] using hn.symm.trans hm

theorem seatNum_data (i : Nat) :
    (seatNum i).data = Nat.toDigits 10 (i / 8 + 1) ++ [Char.ofNat ('A'.toNat + i % 8)] := by
  simp [seatNum, toString, Nat.repr, List.asString]

theorem seatLetter_injective (a b : Nat) (ha : a < 8) (hb : b < 8)
    (h : Char.ofNat ('A'.toNat + a) = Char.ofNat ('A'.toNat + b)) : a = b := by
  interval_cases a <;> interval_cases b <;> first | rfl | (exact absurd h (by decide))

theorem seatLetter_range (a : Nat) (ha : a < 8) :
    Char.ofNat ('A'.toNat + a) ∈ ['A', 'B', 'C', 'D', 'E', 'F', 'G', 'H'] ∧
      (Char.ofNat ('A'.toNat + a)).toNat = 'A'.toNat + a := by
  interval_cases a <;> decide

theorem seatNum_injective (i j : Nat) (h : seatNum i = seatNum j) : i = j := by
  have hd := congrArg String.data h
  rw [seatNum_data, seatNum_data] at hd
  obtain ⟨h1, h2⟩ := List.append_inj' hd rfl
  have hq : i / 8 + 1 = j / 8 + 1 := by
    apply repr_injective
    simp [Nat.repr, h1]
  have hr : i % 8 = j % 8 :=
    seatLetter_injective _ _ (Nat.mod_lt _ (by decide)) (Nat.mod_lt _ (by decide))
      (by simpa using h2)
  omega

/-- C10: seeded seat labels are unique.  The label of index i is the decimal text of i/8 + 1
followed by the letter with code 'A' + i mod 8, one of A..H; two different indices get
different labels; so the rows seeded for the flight, however many, have pairwise distinct
(flight_id, seat_number) pairs; and index 0 gets the label "1A", the target seat, which
SetupDatabase finds with id 1. -/
theorem seatNum_unique :
    (∀ i : Nat, ∃ c ∈ ['A', 'B', 'C', 'D', 'E', 'F', 'G', 'H'],
      c.toNat = 'A'.toNat + i % 8 ∧
        seatNum i = Nat.repr (i / 8 + 1) ++ String.singleton c) ∧
    (∀ i j : Nat, i ≠ j → seatNum i ≠ seatNum j) ∧
    (∀ n : Nat, ((seededRows n).map fun r => (r.flight_id, r.seat_number)).Nodup) ∧
    seatNum 0 = targetSeat ∧
    SetupDatabase.2 = some 1 := by
  refine ⟨fun i => ?_, fun i j hij h => hij (seatNum_injective i j h), fun n => ?_, rfl, ?_⟩
  · have := seatLetter_range (i % 8) (Nat.mod_lt _ (by decide))
    exact ⟨_, this.1, this.2, rfl⟩
  · have : ((seededRows n).map fun r => (r.flight_id, r.seat_number)) =
        (List.range n).map fun i => (flightID, seatNum i) := by
      simp [seededRows, List.map_map, Function.comp_def]
    rw [this]
    refine (List.nodup_range n).map ?_
    intro i j hij
    simp only [Prod.mk.injEq, true_and] at hij
    exact seatNum_injective i j hij
  · decide

/-! ## Exact-target attempts on one seat, serialised -/

/-- One BookSeat attempt either finds the seat available and books it, or leaves the rows as
they were, having seen the seat occupied or having reported contention or an error. -/
theorem BookSeat_step (rows : Table) (f : Faults) (passengerID : String) (seatID : Int)
    (mode : LockMode) :
    (statusOf rows seatID = some Status.available ∧
      (BookSeat rows f passengerID seatID mode).rows =
        Write.apply ⟨seatID, Status.occupied, some ("Passenger-" ++ passengerID)⟩ rows ∧
      (BookSeat rows f passengerID seatID mode).outcomes = [Outcome.Booked]) ∨
    ((BookSeat rows f passengerID seatID mode).rows = rows ∧
      ((Outcome.AlreadyTaken ∈ (BookSeat rows f passengerID seatID mode).outcomes ∧
          (BookSeat rows f passengerID seatID mode).updates = []) ∨
        Outcome.ContendedFailed ∈ (BookSeat rows f passengerID seatID mode).outcomes ∨
        Outcome.TransactionError ∈ (BookSeat rows f passengerID seatID mode).outcomes)) := by
  obtain ⟨fb, fq, fe, fc⟩ := f
  rw [BookSeat_eq]
  cases fb
  · cases fq with
    | some e =>
      by_cases he : e = DbError.mysql 3572 <;> simp [he, World.outcomes, LogLine.outcome]
    | none =>
      cases hrow : seatByID rows seatID with
      | none => simp [World.outcomes, LogLine.outcome]
      | some r =>
        obtain ⟨rid, rfl0, rsn, rst, rpa⟩ := r
        cases rst <;> cases fe <;> cases fc <;>
          simp [statusOf, hrow, World.outcomes, World.updates, Call.isUpdate, LogLine.outcome]
  · simp [World.outcomes, LogLine.outcome]

theorem madeOccupied_of_rows_eq (seatID : Int) (s : Table × World) (h : s.2.rows = s.1) :
    madeOccupied seatID s = false := by
  simp only [madeOccupied, h, Bool.and_eq_false_imp, decide_eq_true_eq, decide_eq_false_iff_not]
  intro h1 h2
  rw [h1] at h2
  exact absurd h2 (by decide)

theorem madeOccupied_of_not_available (seatID : Int) (s : Table × World)
    (h : statusOf s.1 seatID ≠ some Status.available) : madeOccupied seatID s = false := by
  simp [madeOccupied, h]

theorem serialBookSeat_mem (seatID : Int) (attempts : List Attempt) :
    ∀ (rows : Table) (s : Table × World), s ∈ serialBookSeat seatID rows attempts →
      ∃ a ∈ attempts, s.2 = BookSeat s.1 a.faults a.passengerID seatID a.mode := by
  induction attempts with
  | nil => intro rows s hs; simp [serialBookSeat] at hs
  | cons a rest ih =>
    intro rows s hs
    simp only [serialBookSeat, List.mem_cons] at hs
    rcases hs with rfl | hs
    · exact ⟨a, List.mem_cons_self _ _, rfl⟩
    · obtain ⟨b, hb, e⟩ := ih _ s hs
      exact ⟨b, List.mem_cons_of_mem _ hb, e⟩

theorem serialBookSeat_settled (seatID : Int) (attempts : List Attempt) :
    ∀ rows : Table, statusOf rows seatID ≠ some Status.available →
      (serialBookSeat seatID rows attempts).filter (madeOccupied seatID) = [] := by
  induction attempts with
  | nil => intro rows _; rfl
  | cons a rest ih =>
    intro rows h
    have hrows : (BookSeat rows a.faults a.passengerID seatID a.mode).rows = rows := by
      rcases BookSeat_step rows a.faults a.passengerID seatID a.mode with h1 | h1
      · exact absurd h1.1 h
      · exact h1.1
    have hm : madeOccupied seatID (rows, BookSeat rows a.faults a.passengerID seatID a.mode) =
        false := madeOccupied_of_not_available seatID (rows, _) h
    simp only [serialBookSeat, hrows]
    rw [List.filter_cons_of_neg (by simp [hm])]
    exact ih rows h

theorem serialBookSeat_at_most_one (seatID : Int) (attempts : List Attempt) :
    ∀ rows : Table,
      ((serialBookSeat seatID rows attempts).filter (madeOccupied seatID)).length ≤ 1 := by
  induction attempts with
  | nil => intro rows; simp [serialBookSeat]
  | cons a rest ih =>
    intro rows
    simp only [serialBookSeat]
    rcases BookSeat_step rows a.faults a.passengerID seatID a.mode with h1 | h1
    · have hocc := (statusOf_apply_same
        ⟨seatID, Status.occupied, some ("Passenger-" ++ a.passengerID)⟩ rows _ h1.1).1
      rw [← h1.2.1] at hocc
      have hne : statusOf (BookSeat rows a.faults a.passengerID seatID a.mode).rows seatID ≠
          some Status.available := by
        rw [hocc]; simp
      rw [List.filter_cons, serialBookSeat_settled seatID rest _ hne]
      split <;> simp
    · have hm : madeOccupied seatID (rows, BookSeat rows a.faults a.passengerID seatID a.mode) =
          false := madeOccupied_of_rows_eq seatID (rows, _) h1.1
      rw [List.filter_cons_of_neg (by simp [hm]), h1.1]
      exact ih rows

/-- With no store failure, BookSeat on an occupied seat changes nothing and reports that the
seat was already taken. -/
theorem BookSeat_already_taken (rows : Table) (passengerID : String) (seatID : Int)
    (mode : LockMode) (hocc : statusOf rows seatID = some Status.occupied) :
    (BookSeat rows Faults.none passengerID seatID mode).rows = rows ∧
      (BookSeat rows Faults.none passengerID seatID mode).outcomes = [Outcome.AlreadyTaken] := by
  rw [BookSeat_eq]
  simp only [statusOf] at hocc
  cases hr : seatByID rows seatID with
  | none => simp [hr] at hocc
  | some r =>
    obtain ⟨rid, rfl0, rsn, rst, rpa⟩ := r
    simp only [hr, Option.map_some', Option.some.injEq] at hocc
    subst hocc
    simp [Faults.none, World.outcomes, LogLine.outcome]

theorem serialBookSeat_occupied (seatID : Int) (ps : List String) :
    ∀ rows : Table, statusOf rows seatID = some Status.occupied →
      (serialBookSeat seatID rows
          (ps.map fun p => ⟨p, LockMode.LockModeWait, Faults.none⟩)).map
          (fun s => s.2.outcomes) = List.replicate ps.length [Outcome.AlreadyTaken] ∧
        finalRows rows (serialBookSeat seatID rows
          (ps.map fun p => ⟨p, LockMode.LockModeWait, Faults.none⟩)) = rows := by
  induction ps with
  | nil => intro rows _; exact ⟨rfl, rfl⟩
  | cons p rest ih =>
    intro rows h
    have h1 := BookSeat_already_taken rows p seatID LockMode.LockModeWait h
    have h2 := ih rows h
    simp only [List.map_cons, serialBookSeat, h1.1, h1.2, List.length_cons,
      List.replicate_succ, List.cons.injEq, true_and, finalRows, List.foldl_cons] at h2 ⊢
    exact h2

/-- C2: exclusivity of exact-target booking.  For every sequence of BookSeat attempts (any
passengers, lock modes and store behaviour) on one seat that starts available, taken in the
order the row lock serialises them: at most one attempt changes the seat from available to
occupied; every other attempt leaves the rows as they were, having seen the seat occupied
(and issued no UPDATE) or having reported contention or an error; and for every 10 blocking
attempts with no store failure the first reports the booking, the other 9 report that the
seat was already taken, exactly one attempt changed the seat, and the seat ends occupied with
the owner written for the first passenger ("Passenger-" followed by that passenger's id),
which is the owner written for no other passenger id. -/
theorem BookSeat_exclusive (rows : Table) (seatID : Int) (attempts : List Attempt)
    (hav : statusOf rows seatID = some Status.available) :
    ((serialBookSeat seatID rows attempts).filter (madeOccupied seatID)).length ≤ 1 ∧
    (∀ s ∈ serialBookSeat seatID rows attempts, madeOccupied seatID s = false →
      s.2.rows = s.1 ∧
        ((Outcome.AlreadyTaken ∈ s.2.outcomes ∧ s.2.updates = []) ∨
          Outcome.ContendedFailed ∈ s.2.outcomes ∨
          Outcome.TransactionError ∈ s.2.outcomes)) ∧
    (∀ ps : List String, ps.length = 10 →
      (serialBookSeat seatID rows
          (ps.map fun p => ⟨p, LockMode.LockModeWait, Faults.none⟩)).map
          (fun s => s.2.outcomes) =
        [Outcome.Booked] :: List.replicate 9 [Outcome.AlreadyTaken] ∧
      statusOf (finalRows rows (serialBookSeat seatID rows
          (ps.map fun p => ⟨p, LockMode.LockModeWait, Faults.none⟩))) seatID =
        some Status.occupied ∧
      ((serialBookSeat seatID rows
          (ps.map fun p => ⟨p, LockMode.LockModeWait, Faults.none⟩)).filter
          (madeOccupied seatID)).length = 1 ∧
      ownerOf (finalRows rows (serialBookSeat seatID rows
          (ps.map fun p => ⟨p, LockMode.LockModeWait, Faults.none⟩))) seatID =
        ps.head?.map (fun p => some ("Passenger-" ++ p)) ∧
      ∀ q : String,
        ownerOf (finalRows rows (serialBookSeat seatID rows
          (ps.map fun p => ⟨p, LockMode.LockModeWait, Faults.none⟩))) seatID =
            some (some ("Passenger-" ++ q)) → ps.head? = some q) := by
  refine ⟨serialBookSeat_at_most_one seatID attempts rows, ?_, ?_⟩
  · intro s hs hm
    obtain ⟨a, -, e⟩ := serialBookSeat_mem seatID attempts rows s hs
    rcases BookSeat_step s.1 a.faults a.passengerID seatID a.mode with h1 | h1
    · exfalso
      have hocc := (statusOf_apply_same
        ⟨seatID, Status.occupied, some ("Passenger-" ++ a.passengerID)⟩ s.1 _ h1.1).1
      rw [← h1.2.1, ← e] at hocc
      simp [madeOccupied, h1.1, hocc] at hm
    · rw [e]
      exact h1
  · intro ps hps
    match ps, hps with
    | p :: rest, hlen =>
      have hrest : rest.length = 9 := by simpa using hlen
      have hb := BookSeat_books rows p seatID LockMode.LockModeWait hav
      have hocc := statusOf_apply_same
        ⟨seatID, Status.occupied, some ("Passenger-" ++ p)⟩ rows _ hav
      rw [← hb.1] at hocc
      have hr := serialBookSeat_occupied seatID rest _ hocc.1
      rw [hrest] at hr
      have hne : statusOf (BookSeat rows Faults.none p seatID LockMode.LockModeWait).rows
          seatID ≠ some Status.available := by
        rw [hocc.1]; simp
      have hset := serialBookSeat_settled seatID
        (rest.map fun p => ⟨p, LockMode.LockModeWait, Faults.none⟩) _ hne
      have hm : madeOccupied seatID
          (rows, BookSeat rows Faults.none p seatID LockMode.LockModeWait) = true := by
        simp [madeOccupied, hav, hocc.1]
      simp only [List.map_cons, serialBookSeat, finalRows, List.foldl_cons, hb.2,
        List.head?_cons, Option.map_some', List.cons.injEq, true_and] at hr ⊢
      refine ⟨hr.1, ?_, ?_, ?_, ?_⟩
      · rw [hr.2]; exact hocc.1
      · rw [List.filter_cons_of_pos hm, hset]; rfl
      · rw [hr.2]; exact hocc.2
      · intro q hq
        rw [hr.2, hocc.2] at hq
        simp only [Option.some.injEq] at hq ⊢
        exact passengerOwner_injective p q hq

/-- The instance of C2 at the seeded one-seat table and the ten passengers of the
simulation, in the order "1" to "10". -/
theorem BookSeat_exclusive_witness :
    statusOf [⟨1, "SG-101", "1A", Status.available, none⟩] 1 = some Status.available ∧
    ownerOf (finalRows [⟨1, "SG-101", "1A", Status.available, none⟩]
        (serialBookSeat 1 [⟨1, "SG-101", "1A", Status.available, none⟩]
          (List.map (fun p => (⟨p, LockMode.LockModeWait, Faults.none⟩ : Attempt))
            ["1", "2", "3", "4", "5", "6", "7", "8", "9", "10"]))) 1 =
      some (some "Passenger-1") :=
  ⟨rfl,
    ((BookSeat_exclusive [⟨1, "SG-101", "1A", Status.available, none⟩] 1
      (List.map (fun p => (⟨p, LockMode.LockModeWait, Faults.none⟩ : Attempt))
        ["1", "2", "3", "4", "5", "6", "7", "8", "9", "10"]) rfl).2.2
      ["1", "2", "3", "4", "5", "6", "7", "8", "9", "10"] rfl).2.2.2.1⟩

/-! ## Any-available attempts, serialised -/

theorem firstAvailable_some (rows : Table) (r : Seat) (h : firstAvailable rows = some r) :
    r ∈ rows ∧ r.status = Status.available := by
  refine ⟨List.mem_of_find?_eq_some h, ?_⟩
  simpa using List.find?_some h

theorem firstAvailable_none (rows : Table) (h : firstAvailable rows = none) :
    countAvailable rows = 0 := by
  simp only [firstAvailable, List.find?_eq_none] at h
  simpa [countAvailable, List.countP_eq_zero] using h

theorem seatByID_of_mem (rows : Table) (hkey : (rows.map fun r => r.id).Nodup) (r : Seat)
    (hr : r ∈ rows) : seatByID rows r.id = some r := by
  induction rows with
  | nil => simp at hr
  | cons x xs ih =>
    simp only [List.map_cons, List.nodup_cons, List.mem_map, not_exists, not_and] at hkey
    simp only [seatByID, List.find?_cons]
    rcases List.mem_cons.1 hr with rfl | hmem
    · simp
    · have hne : ¬ x.id = r.id := fun e => hkey.1 r hmem e.symm
      simp only [hne, decide_False]
      exact ih hkey.2 hmem

theorem counts_apply_firstAvailable (rows : Table) (hkey : (rows.map fun r => r.id).Nodup)
    (r : Seat) (h : firstAvailable rows = some r) (o : Option String) :
    countAvailable (Write.apply ⟨r.id, Status.occupied, o⟩ rows) + 1 = countAvailable rows ∧
      countOccupied (Write.apply ⟨r.id, Status.occupied, o⟩ rows) = countOccupied rows + 1 := by
  induction rows with
  | nil => simp [firstAvailable] at h
  | cons x xs ih =>
    have hkey2 := hkey
    simp only [List.map_cons, List.nodup_cons] at hkey2
    by_cases hx : x.status = Status.available
    · have hrx : r = x := by
        simp only [firstAvailable, List.find?_cons, hx, decide_True, Option.some.injEq] at h
        exact h.symm
      subst hrx
      have hrest : Write.apply ⟨r.id, Status.occupied, o⟩ xs = xs :=
        Write.apply_of_not_mem _ xs hkey2.1
      have hhead : Write.apply ⟨r.id, Status.occupied, o⟩ (r :: xs) =
          { r with status := Status.occupied, passenger_id := o } ::
            Write.apply ⟨r.id, Status.occupied, o⟩ xs := by
        simp [Write.apply]
      rw [hhead, hrest]
      simp [countAvailable, countOccupied, List.countP_cons, hx]
    · have hfx : firstAvailable xs = some r := by
        simpa [firstAvailable, List.find?_cons, hx] using h
      have hmem := (firstAvailable_some xs r hfx).1
      have hne : ¬ x.id = r.id := fun e =>
        hkey2.1 (e ▸ List.mem_map_of_mem (fun r => r.id) hmem)
      have hhead : Write.apply ⟨r.id, Status.occupied, o⟩ (x :: xs) =
          x :: Write.apply ⟨r.id, Status.occupied, o⟩ xs := by
        simp [Write.apply, hne]
      have := ih hkey2.2 hfx
      rw [hhead]
      simp only [countAvailable, countOccupied, List.countP_cons] at this ⊢
      omega

theorem BookAnyAvailableSeat_not_found (rows : Table) (passengerID : String)
    (h : firstAvailable rows = none) :
    BookAnyAvailableSeat rows Faults.none passengerID =
      ⟨rows, [], [Call.begin true, Call.selectAvailableSkipLocked, Call.rollback],
        [LogLine.noAvailableSeats passengerID]⟩ := by
  rw [BookAnyAvailableSeat_eq]
  simp [Faults.none, h]

theorem BookAnyAvailableSeat_books (rows : Table) (passengerID : String) (r : Seat)
    (h : firstAvailable rows = some r) :
    BookAnyAvailableSeat rows Faults.none passengerID =
      ⟨Write.apply ⟨r.id, Status.occupied, some ("Passenger-" ++ passengerID)⟩ rows, [],
        [Call.begin true, Call.selectAvailableSkipLocked,
          Call.updateOccupied ("Passenger-" ++ passengerID) r.id true,
          Call.commit true, Call.rollback],
        [LogLine.foundAndLocked passengerID r.seat_number r.id,
          LogLine.successfullyBookedAny passengerID r.seat_number]⟩ := by
  rw [BookAnyAvailableSeat_eq]
  simp [Faults.none, h]

theorem anySimulation_nil (rows : Table) : anySimulation rows [] = [] := rfl

theorem anySimulation_cons (rows : Table) (p : String) (ps : List String) :
    anySimulation rows (p :: ps) =
      (rows, BookAnyAvailableSeat rows Faults.none p) ::
        anySimulation (BookAnyAvailableSeat rows Faults.none p).rows ps := rfl

theorem finalRows_cons (rows : Table) (s : Table × World) (run : List (Table × World)) :
    finalRows rows (s :: run) = finalRows s.2.rows run := rfl

theorem firstAvailable_status (rows : Table) (hkey : (rows.map fun r => r.id).Nodup)
    (r : Seat) (h : firstAvailable rows = some r) :
    statusOf rows r.id = some Status.available := by
  have hr := firstAvailable_some rows r h
  simp [statusOf, seatByID_of_mem rows hkey r hr.1, hr.2]

theorem anySimulation_preserves (ps : List String) :
    ∀ rows : Table, (rows.map fun r => r.id).Nodup →
      ∀ seatID, statusOf rows seatID = some Status.occupied →
        statusOf (finalRows rows (anySimulation rows ps)) seatID = some Status.occupied ∧
          ownerOf (finalRows rows (anySimulation rows ps)) seatID = ownerOf rows seatID := by
  induction ps with
  | nil => intro rows _ seatID h; exact ⟨h, rfl⟩
  | cons p ps ih =>
    intro rows hkey seatID h
    rw [anySimulation_cons, finalRows_cons]
    cases hf : firstAvailable rows with
    | none =>
      rw [BookAnyAvailableSeat_not_found rows p hf]
      exact ih rows hkey seatID h
    | some r =>
      rw [BookAnyAvailableSeat_books rows p r hf]
      have hne : seatID ≠ r.id := by
        intro e
        have := firstAvailable_status rows hkey r hf
        rw [← e, h] at this
        exact absurd this (by decide)
      have hsame := seatByID_apply_other
        ⟨r.id, Status.occupied, some ("Passenger-" ++ p)⟩ rows seatID hne
      have hkey2 : ((Write.apply ⟨r.id, Status.occupied, some ("Passenger-" ++ p)⟩ rows).map
          fun r => r.id).Nodup := by
        rw [Write.apply_ids]; exact hkey
      have := ih _ hkey2 seatID (by simpa [statusOf, hsame] using h)
      refine ⟨this.1, ?_⟩
      rw [this.2]
      simp [ownerOf, hsame]

theorem anySimulation_counts (ps : List String) :
    ∀ rows : Table, (rows.map fun r => r.id).Nodup →
      ((anySimulation rows ps).filter
          fun s => decide (s.2.outcomes = [Outcome.Booked])).length =
        min ps.length (countAvailable rows) ∧
      ((anySimulation rows ps).filter
          fun s => decide (s.2.outcomes = [Outcome.NotFound])).length =
        ps.length - min ps.length (countAvailable rows) ∧
      (∀ s ∈ anySimulation rows ps, s.2.outcomes = [Outcome.NotFound] →
        s.2.rows = s.1 ∧ s.2.updates = []) ∧
      countAvailable (finalRows rows (anySimulation rows ps)) =
        countAvailable rows - min ps.length (countAvailable rows) ∧
      countOccupied (finalRows rows (anySimulation rows ps)) =
        countOccupied rows + min ps.length (countAvailable rows) := by
  induction ps with
  | nil => intro rows _; simp [anySimulation_nil, finalRows]
  | cons p ps ih =>
    intro rows hkey
    rw [anySimulation_cons, finalRows_cons]
    cases hf : firstAvailable rows with
    | none =>
      have h0 := firstAvailable_none rows hf
      rw [BookAnyAvailableSeat_not_found rows p hf]
      obtain ⟨i1, i2, i3, i4, i5⟩ := ih rows hkey
      simp only [h0, Nat.min_zero, Nat.sub_zero, Nat.add_zero, Nat.zero_sub] at i1 i2 i4 i5 ⊢
      refine ⟨?_, ?_, ?_, i4, i5⟩
      · rw [List.filter_cons_of_neg (by simp [World.outcomes, LogLine.outcome])]
        exact i1
      · rw [List.filter_cons_of_pos (by simp [World.outcomes, LogLine.outcome])]
        simp [i2]
      · intro s hs hn
        rcases List.mem_cons.1 hs with rfl | hs
        · simp [World.updates, Call.isUpdate]
        · exact i3 s hs hn
    | some r =>
      have hc := counts_apply_firstAvailable rows hkey r hf (some ("Passenger-" ++ p))
      rw [BookAnyAvailableSeat_books rows p r hf]
      have hkey2 : ((Write.apply ⟨r.id, Status.occupied, some ("Passenger-" ++ p)⟩ rows).map
          fun r => r.id).Nodup := by
        rw [Write.apply_ids]; exact hkey
      obtain ⟨i1, i2, i3, i4, i5⟩ := ih _ hkey2
      refine ⟨?_, ?_, ?_, ?_, ?_⟩
      · rw [List.filter_cons_of_pos (by simp [World.outcomes, LogLine.outcome])]
        simp only [List.length_cons, i1]
        omega
      · rw [List.filter_cons_of_neg (by simp [World.outcomes, LogLine.outcome])]
        simp only [List.length_cons, i2]
        omega
      · intro s hs hn
        rcases List.mem_cons.1 hs with rfl | hs
        · simp [World.outcomes, LogLine.outcome] at hn
        · exact i3 s hs hn
      · simp only [List.length_cons, i4]
        omega
      · simp only [List.length_cons, i5]
        omega

theorem anySimulation_bookings (ps : List String) :
    ∀ rows : Table, (rows.map fun r => r.id).Nodup →
      (runBookings (anySimulation rows ps)).map Prod.snd =
        (ps.take (countAvailable rows)).map (fun p => "Passenger-" ++ p) ∧
      ((runBookings (anySimulation rows ps)).map Prod.fst).Nodup ∧
      (∀ b ∈ runBookings (anySimulation rows ps),
        statusOf rows b.1 = some Status.available ∧
          statusOf (finalRows rows (anySimulation rows ps)) b.1 = some Status.occupied ∧
          ownerOf (finalRows rows (anySimulation rows ps)) b.1 = some (some b.2)) := by
  induction ps with
  | nil => intro rows _; simp [anySimulation_nil, runBookings]
  | cons p ps ih =>
    intro rows hkey
    rw [anySimulation_cons, finalRows_cons]
    cases hf : firstAvailable rows with
    | none =>
      have h0 := firstAvailable_none rows hf
      rw [BookAnyAvailableSeat_not_found rows p hf]
      obtain ⟨i1, i2, i3⟩ := ih rows hkey
      simp only [h0, List.take_zero, List.map_nil] at i1 ⊢
      have hb : runBookings ((rows, (⟨rows, [],
          [Call.begin true, Call.selectAvailableSkipLocked, Call.rollback],
          [LogLine.noAvailableSeats p]⟩ : World)) :: anySimulation rows ps) =
          runBookings (anySimulation rows ps) := by
        simp [runBookings, World.bookings]
      rw [hb]
      exact ⟨i1, i2, i3⟩
    | some r =>
      have hc := counts_apply_firstAvailable rows hkey r hf (some ("Passenger-" ++ p))
      have hst := firstAvailable_status rows hkey r hf
      rw [BookAnyAvailableSeat_books rows p r hf]
      have hkey2 : ((Write.apply ⟨r.id, Status.occupied, some ("Passenger-" ++ p)⟩ rows).map
          fun r => r.id).Nodup := by
        rw [Write.apply_ids]; exact hkey
      obtain ⟨i1, i2, i3⟩ := ih _ hkey2
      have hocc := statusOf_apply_same
        ⟨r.id, Status.occupied, some ("Passenger-" ++ p)⟩ rows _ hst
      have hpres := anySimulation_preserves ps _ hkey2 r.id hocc.1
      have hb : ∀ run : List (Table × World), runBookings
          ((rows, (⟨Write.apply ⟨r.id, Status.occupied, some ("Passenger-" ++ p)⟩ rows, [],
            [Call.begin true, Call.selectAvailableSkipLocked,
              Call.updateOccupied ("Passenger-" ++ p) r.id true, Call.commit true, Call.rollback],
            [LogLine.foundAndLocked p r.seat_number r.id,
              LogLine.successfullyBookedAny p r.seat_number]⟩ : World)) :: run) =
          (r.id, "Passenger-" ++ p) :: runBookings run := by
        intro run
        simp [runBookings, World.bookings]
      rw [hb]
      have hlater : ∀ b ∈ runBookings (anySimulation
          (Write.apply ⟨r.id, Status.occupied, some ("Passenger-" ++ p)⟩ rows) ps),
          b.1 ≠ r.id := by
        intro b hbm e
        have := (i3 b hbm).1
        rw [e, hocc.1] at this
        exact absurd this (by simp)
      refine ⟨?_, ?_, ?_⟩
      · rw [← hc.1, List.take_succ_cons]
        simp [i1]
      · simp only [List.map_cons, List.nodup_cons, List.mem_map, not_exists, not_and]
        exact ⟨fun b hbm e => hlater b hbm e, i2⟩
      · intro b hbm
        rcases List.mem_cons.1 hbm with rfl | hbm
        · exact ⟨hst, hpres.1, by rw [hpres.2]; exact hocc.2⟩
        · have h3 := i3 b hbm
          have hsame := seatByID_apply_other
            ⟨r.id, Status.occupied, some ("Passenger-" ++ p)⟩ rows b.1 (hlater b hbm)
          refine ⟨?_, h3.2.1, h3.2.2⟩
          have := h3.1
          simpa [statusOf, hsame] using this

/-- C3: any-available booking count.  For K pairwise distinct passengers running
BookAnyAvailableSeat one after the other with no store failure on a table with unique ids and
exactly M available seats: exactly min(K, M) attempts report a booking and commit one; the
booked seats are pairwise different and so are their owners; each booked seat was available
at the start and ends occupied and owned by the tag of the passenger that booked it; exactly
K - min(K, M) attempts report that no seat is available, and those issue no UPDATE and leave
the rows as they were; at the end M - min(K, M) seats are available and min(K, M) more are
occupied.  So K <= M gives K bookings and K more occupied seats, and M < K gives M bookings
and K - M not-found outcomes. -/
theorem BookAnyAvailableSeat_count (rows : Table) (ps : List String) (M : Nat)
    (hkey : (rows.map fun r => r.id).Nodup) (hps : ps.Nodup)
    (hM : countAvailable rows = M) :
    (((anySimulation rows ps).filter
          fun s => decide (s.2.outcomes = [Outcome.Booked])).length = min ps.length M ∧
      (runBookings (anySimulation rows ps)).length = min ps.length M) ∧
    (((runBookings (anySimulation rows ps)).map Prod.fst).Nodup ∧
      ((runBookings (anySimulation rows ps)).map Prod.snd).Nodup ∧
      ∀ b ∈ runBookings (anySimulation rows ps),
        statusOf rows b.1 = some Status.available ∧
          statusOf (finalRows rows (anySimulation rows ps)) b.1 = some Status.occupied ∧
          ownerOf (finalRows rows (anySimulation rows ps)) b.1 = some (some b.2)) ∧
    (((anySimulation rows ps).filter
          fun s => decide (s.2.outcomes = [Outcome.NotFound])).length =
        ps.length - min ps.length M ∧
      ∀ s ∈ anySimulation rows ps, s.2.outcomes = [Outcome.NotFound] →
        s.2.rows = s.1 ∧ s.2.updates = []) ∧
    (countAvailable (finalRows rows (anySimulation rows ps)) = M - min ps.length M ∧
      countOccupied (finalRows rows (anySimulation rows ps)) =
        countOccupied rows + min ps.length M) ∧
    (ps.length ≤ M →
      ((anySimulation rows ps).filter
          fun s => decide (s.2.outcomes = [Outcome.Booked])).length = ps.length ∧
        countOccupied (finalRows rows (anySimulation rows ps)) =
          countOccupied rows + ps.length) ∧
    (M < ps.length →
      ((anySimulation rows ps).filter
          fun s => decide (s.2.outcomes = [Outcome.Booked])).length = M ∧
        ((anySimulation rows ps).filter
          fun s => decide (s.2.outcomes = [Outcome.NotFound])).length = ps.length - M) := by
  subst hM
  obtain ⟨c1, c2, c3, c4, c5⟩ := anySimulation_counts ps rows hkey
  obtain ⟨b1, b2, b3⟩ := anySimulation_bookings ps rows hkey
  have hlen : (runBookings (anySimulation rows ps)).length =
      min ps.length (countAvailable rows) := by
    have := congrArg List.length b1
    simp only [List.length_map, List.length_take] at this
    rw [this, Nat.min_comm]
  have hown : ((runBookings (anySimulation rows ps)).map Prod.snd).Nodup := by
    rw [b1]
    exact (hps.sublist (List.take_sublist _ _)).map
      (fun p q h => passengerOwner_injective p q h)
  refine ⟨⟨c1, hlen⟩, ⟨b2, hown, b3⟩, ⟨c2, c3⟩, ⟨c4, c5⟩, ?_, ?_⟩
  · intro hle
    rw [c1, c5, Nat.min_eq_left hle]
    exact ⟨rfl, rfl⟩
  · intro hlt
    rw [c1, c2, Nat.min_eq_right (Nat.le_of_lt hlt)]
    exact ⟨rfl, rfl⟩

/-- The instance of C3 at the seeded table of the program (10 seats) and its 10 passengers:
10 bookings, of pairwise different seats. -/
theorem BookAnyAvailableSeat_count_witness :
    (((seededRows numSeats).map fun r => r.id).Nodup ∧ simulationPassengers.Nodup ∧
      countAvailable (seededRows numSeats) = 10) ∧
    (runBookings (anySimulation (seededRows numSeats) simulationPassengers)).length = 10 ∧
    ((runBookings (anySimulation (seededRows numSeats) simulationPassengers)).map
      Prod.fst).Nodup :=
  ⟨⟨by decide, by decide, by decide⟩,
    (BookAnyAvailableSeat_count (seededRows numSeats) simulationPassengers 10
      (by decide) (by decide) (by decide)).1.2,
    (BookAnyAvailableSeat_count (seededRows numSeats) simulationPassengers 10
      (by decide) (by decide) (by decide)).2.1.1⟩

end AirlineCheckin
